import Mathlib

/-!
# Verification of the latticenoise engine (latticenoise.c)

A shallow embedding of `src/latticenoise.c`.  C `float` values are modelled
as exact rationals (`ℚ`); the `INFINITY` sentinel (and any non-finite value
derived from it, such as NaN produced by arithmetic on infinities) is
modelled as `none` in `Option ℚ`.  C `unsigned int` arithmetic is modelled
on `ℕ` with explicit reductions modulo `2^32`; the `unsigned long long`
accumulator of `ln_lattice_new` is reduced modulo `2^64`.
-/

namespace LatticeNoise

/-- `UINT_MAX + 1`: the modulus of C `unsigned int` arithmetic. -/
def U32 : ℕ := 2 ^ 32

/-- `ULLONG_MAX + 1`: the modulus of C `unsigned long long` arithmetic. -/
def U64 : ℕ := 2 ^ 64

/-- The lattice record, `struct ln_lattice_s` from latticenoise.h.
`values` is the sample buffer (`float *values`). -/
structure ln_lattice_s where
  values : List ℚ
  dim_length : ℕ
  size : ℕ
  seed : ℕ
  dimensions : ℕ
  deriving DecidableEq

/-- The invariants every lattice produced by `ln_lattice_new` satisfies:
fields fit in `unsigned int`, `size = dim_length ^ dimensions`, and the
buffer really holds `size` samples. -/
def WellFormed (lat : ln_lattice_s) : Prop :=
  1 ≤ lat.dim_length ∧ lat.dim_length < U32 ∧ 1 ≤ lat.dimensions ∧
  lat.size = lat.dim_length ^ lat.dimensions ∧ lat.size < U32 ∧
  lat.values.length = lat.size

instance (lat : ln_lattice_s) : Decidable (WellFormed lat) := by
  unfold WellFormed; infer_instance

/-- `clamp01` from latticenoise.c. -/
def clamp01 (v : ℚ) : ℚ :=
  if v < 0 then 0
  else if v > 1 then 1
  else v

/-- `ln_lattice_new`.  The RNG is the supplied `rng_func`, modelled as the
stream of values it returns on successive calls (`rng i` is the value of the
`i`-th call).  Allocation is assumed to succeed, so the `malloc == NULL`
branches are not taken; `none` models a `NULL` return from the argument and
size checks.  The C size accumulator is an `unsigned long long`, hence the
`% U64` applied at each multiplication. -/
def ln_lattice_new (dimensions dim_length : ℕ) (rng : ℕ → ℚ) :
    Option ln_lattice_s :=
  if dimensions < 1 ∨ dim_length < 1 then none
  else
    let size := (List.range dimensions).foldl (fun s _ => s * dim_length % U64) 1
    if size > U32 - 1 then none
    else
      some ⟨(List.range size).map (fun i => clamp01 (rng i)),
            dim_length, size, 0, dimensions⟩

/-- `ln_lattice_value1`.  The C bounds test is `x > lattice->size - 1` in
`unsigned int` arithmetic, so `size - 1` wraps around when `size = 0`. -/
def ln_lattice_value1 (lat : ln_lattice_s) (x : ℕ) : Option ℚ :=
  if lat.dimensions ≠ 1 ∨ (lat.size + (U32 - 1)) % U32 < x then none
  else some (lat.values.getD x 0)

/-- `ln_lattice_value2`.  The index `y * dim_length + x` is computed in
`unsigned int` arithmetic, hence the `% U32`. -/
def ln_lattice_value2 (lat : ln_lattice_s) (x y : ℕ) : Option ℚ :=
  if lat.dimensions ≠ 2 ∨ x ≥ lat.dim_length ∨ y ≥ lat.dim_length then none
  else some (lat.values.getD ((y * lat.dim_length + x) % U32) 0)

/-- `ln_lattice_value3`.  Note the source tests `lattice->dimensions != 2`
(not `!= 3`), exactly as written in latticenoise.c. -/
def ln_lattice_value3 (lat : ln_lattice_s) (x y z : ℕ) : Option ℚ :=
  if lat.dimensions ≠ 2 ∨ x ≥ lat.dim_length ∨ y ≥ lat.dim_length ∨
      z ≥ lat.dim_length then none
  else some (lat.values.getD
    ((z * lat.dim_length * lat.dim_length + y * lat.dim_length + x) % U32) 0)

/-- `ln_lattice_value4`.  Note the source tests `lattice->dimensions != 2`
(not `!= 4`), exactly as written in latticenoise.c. -/
def ln_lattice_value4 (lat : ln_lattice_s) (x y z w : ℕ) : Option ℚ :=
  if lat.dimensions ≠ 2 ∨ x ≥ lat.dim_length ∨ y ≥ lat.dim_length ∨
      z ≥ lat.dim_length ∨ w ≥ lat.dim_length then none
  else some (lat.values.getD
    ((w * lat.dim_length * lat.dim_length * lat.dim_length +
      z * lat.dim_length * lat.dim_length + y * lat.dim_length + x) % U32) 0)

/-- The `WRAP(offset)` macro, `(offset) % lattice->dim_length`, applied to an
`unsigned int` expression: the argument is first reduced modulo `2^32` (C
unsigned overflow) and then modulo `dim_length`. -/
def wrap32 (k L : ℕ) : ℕ := k % U32 % L

/-- `fmodf(fabs(x), (float)dim_length)`: the absolute value of `x` reduced
into `[0, L)`.  `fmodf` computes `a - L * trunc(a / L)`, and `a = |x| ≥ 0`,
so `trunc` coincides with `floor`. -/
def reduceCoord (x : ℚ) (L : ℕ) : ℚ := |x| - L * ⌊|x| / L⌋

/-- `(unsigned int) fix`: the integer part of the reduced coordinate, the
lattice index `uix` of `ln_lattice_noise1d` / `ln_lattice_noise2d`. -/
def uixOf (x : ℚ) (L : ℕ) : ℕ := (⌊reduceCoord x L⌋).toNat

/-- `catmull_rom` from latticenoise.c, verbatim. -/
def catmull_rom (p0 p1 p2 p3 x : ℚ) : ℚ :=
  let f0 := p1; let f1 := p2
  let fd0 := (p2 - p0) / 2; let fd1 := (p3 - p1) / 2
  let a := (2 * f0) - (2 * f1) + fd0 + fd1
  let b := (-3 * f0) + (3 * f1) - (2 * fd0) - fd1
  let c := fd0
  let d := f0
  let x2 := x * x; let x3 := x2 * x
  a * x3 + b * x2 + c * x + d

/-- The four lattice indices `WRAP(uix - 1), WRAP(uix), WRAP(uix + 1),
WRAP(uix + 2)` fetched by `ln_lattice_noise1d`; `uix - 1` is `unsigned int`
subtraction, i.e. addition of `2^32 - 1` modulo `2^32`. -/
def noise1dIndices (L uix : ℕ) : List ℕ :=
  [wrap32 (uix + (U32 - 1)) L, wrap32 uix L, wrap32 (uix + 1) L,
   wrap32 (uix + 2) L]

/-- The body of `ln_lattice_noise1d` after the local variables `uix` and `r`
have been computed: fetch the four neighbor samples and interpolate.  If any
fetch returns the `INFINITY` sentinel, the interpolated result is
non-finite, modelled as `none`. -/
def noise1dAux (lat : ln_lattice_s) (uix : ℕ) (r : ℚ) : Option ℚ :=
  match ln_lattice_value1 lat (wrap32 (uix + (U32 - 1)) lat.dim_length),
        ln_lattice_value1 lat (wrap32 uix lat.dim_length),
        ln_lattice_value1 lat (wrap32 (uix + 1) lat.dim_length),
        ln_lattice_value1 lat (wrap32 (uix + 2) lat.dim_length) with
  | some p0, some p1, some p2, some p3 => some (catmull_rom p0 p1 p2 p3 r)
  | _, _, _, _ => none

/-- `ln_lattice_noise1d`. -/
def ln_lattice_noise1d (lat : ln_lattice_s) (x : ℚ) : Option ℚ :=
  noise1dAux lat (uixOf x lat.dim_length)
    (Int.fract (reduceCoord x lat.dim_length))

/-- One iteration of the x-interpolation loop of `ln_lattice_noise2d`: the
four fetches along x at row `y_base`, interpolated with parameter `r1`
(the Catmull-Rom branch; `LN_DEFAULT_HERMITE_INTERPOLATION` is not
defined). -/
def noise2dRow (lat : ln_lattice_s) (uix : ℕ) (r1 : ℚ) (y_base : ℕ) :
    Option ℚ :=
  match ln_lattice_value2 lat (wrap32 (uix + (U32 - 1)) lat.dim_length) y_base,
        ln_lattice_value2 lat (wrap32 uix lat.dim_length) y_base,
        ln_lattice_value2 lat (wrap32 (uix + 1) lat.dim_length) y_base,
        ln_lattice_value2 lat (wrap32 (uix + 2) lat.dim_length) y_base with
  | some p0, some p1, some p2, some p3 => some (catmull_rom p0 p1 p2 p3 r1)
  | _, _, _, _ => none

/-- The update `y_base = WRAP(y_base + 1)` performed after each row of the
`ln_lattice_noise2d` loop. -/
def ybNext (L yb : ℕ) : ℕ := wrap32 (yb + 1) L

/-- The body of `ln_lattice_noise2d` after `uix`, `uiy`, `r1`, `r2` have
been computed.  The C `for` loop over `i = 0..3` is unrolled: `y_base`
starts at `WRAP(uiy - 1)` and is advanced by `ybNext` after each row.  The
final y-interpolation is clamped into `[0,1]`. -/
def noise2dAux (lat : ln_lattice_s) (uix uiy : ℕ) (r1 r2 : ℚ) : Option ℚ :=
  match noise2dRow lat uix r1 (wrap32 (uiy + (U32 - 1)) lat.dim_length),
        noise2dRow lat uix r1
          (ybNext lat.dim_length (wrap32 (uiy + (U32 - 1)) lat.dim_length)),
        noise2dRow lat uix r1
          (ybNext lat.dim_length
            (ybNext lat.dim_length (wrap32 (uiy + (U32 - 1)) lat.dim_length))),
        noise2dRow lat uix r1
          (ybNext lat.dim_length
            (ybNext lat.dim_length
              (ybNext lat.dim_length
                (wrap32 (uiy + (U32 - 1)) lat.dim_length)))) with
  | some v0, some v1, some v2, some v3 =>
      some (clamp01 (catmull_rom v0 v1 v2 v3 r2))
  | _, _, _, _ => none

/-- `ln_lattice_noise2d`. -/
def ln_lattice_noise2d (lat : ln_lattice_s) (x y : ℚ) : Option ℚ :=
  noise2dAux lat (uixOf x lat.dim_length) (uixOf y lat.dim_length)
    (Int.fract (reduceCoord x lat.dim_length))
    (Int.fract (reduceCoord y lat.dim_length))

/-- `ln_fsum_options` from latticenoise.h.  The C fields `amplitude_ratio`
and `frequency_ratio` are named `amplitude_factor` and `frequency_factor`
here. -/
structure ln_fsum_options where
  n : ℕ
  amplitude_factor : ℚ
  frequency_factor : ℚ
  offset : ℚ
  deriving DecidableEq

/-- `ln_default_fsum_options`: `n = 4`, `amplitude_ratio = 0.5`,
`frequency_ratio = 2.0`, `offset = 0.0`. -/
def ln_default_fsum_options : ln_fsum_options := ⟨4, 1/2, 2, 0⟩

/-- One iteration of the `FSUM_IMPLEMENTATION` loop body.  The state is
`(result, a, f, log)`; `log` records the frequency of every noise sample
taken, in order, so that "no sampling occurred" is expressible as an empty
log.  A sentinel (`none`) flowing into `result` makes the final result
non-finite. -/
def fsumStep (opt : ln_fsum_options) (sample : ℚ → Option ℚ)
    (st : Option ℚ × ℚ × ℚ × List ℚ) (i : ℕ) : Option ℚ × ℚ × ℚ × List ℚ :=
  (match st.1, sample st.2.2.1 with
   | some res, some v => some (res + st.2.1 * v)
   | _, _ => none,
   st.2.1 * opt.amplitude_factor,
   st.2.2.1 * opt.frequency_factor,
   st.2.2.2 ++ [st.2.2.1])

/-- The `FSUM_IMPLEMENTATION(call, dims)` macro.  `sample f` stands for the
macro's `call` expression evaluated with the loop variable `f` (the current
frequency). -/
def FSUM_IMPLEMENTATION (lat : ln_lattice_s) (opt : ln_fsum_options)
    (dims : ℕ) (sample : ℚ → Option ℚ) : Option ℚ × List ℚ :=
  if opt.n < 1 ∨ lat.dimensions ≠ dims then (none, [])
  else
    let st := (List.range opt.n).foldl (fsumStep opt sample)
      (some opt.offset, 1, 1, [])
    (st.1, st.2.2.2)

/-- `ln_lattice_fsum1d`. -/
def ln_lattice_fsum1d (lat : ln_lattice_s) (x : ℚ) (opt : ln_fsum_options) :
    Option ℚ :=
  (FSUM_IMPLEMENTATION lat opt 1 (fun f => ln_lattice_noise1d lat (f * x))).1

/-- The frequencies at which `ln_lattice_fsum1d` samples the noise field,
in order: empty exactly when no sampling occurred. -/
def fsum1dSampleLog (lat : ln_lattice_s) (x : ℚ) (opt : ln_fsum_options) :
    List ℚ :=
  (FSUM_IMPLEMENTATION lat opt 1 (fun f => ln_lattice_noise1d lat (f * x))).2

/-- `ln_lattice_fsum2d`. -/
def ln_lattice_fsum2d (lat : ln_lattice_s) (x y : ℚ)
    (opt : ln_fsum_options) : Option ℚ :=
  (FSUM_IMPLEMENTATION lat opt 2
    (fun f => ln_lattice_noise2d lat (f * x) (f * y))).1

/-- The frequencies at which `ln_lattice_fsum2d` samples the noise field. -/
def fsum2dSampleLog (lat : ln_lattice_s) (x y : ℚ)
    (opt : ln_fsum_options) : List ℚ :=
  (FSUM_IMPLEMENTATION lat opt 2
    (fun f => ln_lattice_noise2d lat (f * x) (f * y))).2

/-- `ln_fsum_max_value`.  The first two assignments to `v` are dead stores
in the C source (`v = opt->offset; v += 1.0f;` is overwritten by both
branches); they are kept here verbatim. -/
def ln_fsum_max_value (opt : ln_fsum_options) : Option ℚ :=
  if opt.n < 1 then none
  else
    let v := opt.offset
    let v := v + 1
    let r := opt.amplitude_factor
    let v := if r ≠ 1 then (1 - r ^ opt.n) / (1 - r) else (opt.n : ℚ)
    some v

/-- Modelled from the spec: the "true modulo" (never negative) wrap of an
integer offset `k` into `[0, L)`, `wrap(k) = ((k mod L) + L) mod L`. -/
def specWrap (k : ℤ) (L : ℕ) : ℤ := (k % (L : ℤ) + (L : ℤ)) % (L : ℤ)

/-! ## Concrete lattices used as witnesses and counterexamples -/

/-- The spec's end-to-end scenario: a 1-D lattice of length 4 holding the
samples `[0.1, 0.9, 0.2, 0.7]`. -/
def exLattice1 : ln_lattice_s := ⟨[1/10, 9/10, 2/10, 7/10], 4, 4, 0, 1⟩

/-- A well-formed 2-D lattice: `dim_length = 2`, 4 samples. -/
def exLattice2 : ln_lattice_s := ⟨[1/10, 2/10, 3/10, 4/10], 2, 4, 0, 2⟩

/-- A well-formed 3-D lattice: `dim_length = 2`, 8 samples. -/
def exLattice3 : ln_lattice_s :=
  ⟨(List.range 8).map (fun i => (i : ℚ) / 10), 2, 8, 0, 3⟩

/-- A well-formed 4-D lattice: `dim_length = 2`, 16 samples. -/
def exLattice4 : ln_lattice_s :=
  ⟨(List.range 16).map (fun i => (i : ℚ) / 20), 2, 16, 0, 4⟩

/-! ## Helper lemmas -/

lemma U32_eq : U32 = 4294967296 := by norm_num [U32]

lemma clamp01_mem (v : ℚ) : 0 ≤ clamp01 v ∧ clamp01 v ≤ 1 := by
  unfold clamp01
  split_ifs with h1 h2
  · exact ⟨le_refl 0, by norm_num⟩
  · exact ⟨by norm_num, le_refl 1⟩
  · exact ⟨le_of_not_lt h1, le_of_not_lt h2⟩

lemma wrap32_lt (k L : ℕ) (hL : 0 < L) : wrap32 k L < L :=
  Nat.mod_lt _ hL

/-- `reduceCoord` as `dim_length` times the fractional part of `|x| / L`. -/
lemma reduceCoord_eq_mul_fract (x : ℚ) (L : ℕ) (hL : 0 < L) :
    reduceCoord x L = L * Int.fract (|x| / L) := by
  have hL0 : (L : ℚ) ≠ 0 := by positivity
  unfold reduceCoord Int.fract
  field_simp

lemma reduceCoord_nonneg (x : ℚ) (L : ℕ) (hL : 0 < L) :
    0 ≤ reduceCoord x L := by
  rw [reduceCoord_eq_mul_fract x L hL]
  have h1 : (0 : ℚ) ≤ L := by positivity
  exact mul_nonneg h1 (Int.fract_nonneg _)

lemma reduceCoord_lt (x : ℚ) (L : ℕ) (hL : 0 < L) :
    reduceCoord x L < L := by
  rw [reduceCoord_eq_mul_fract x L hL]
  have h1 : (0 : ℚ) < L := by positivity
  calc (L : ℚ) * Int.fract (|x| / L) < L * 1 :=
        (mul_lt_mul_left h1).mpr (Int.fract_lt_one _)
    _ = L := mul_one _

lemma uixOf_lt (x : ℚ) (L : ℕ) (hL : 0 < L) : uixOf x L < L := by
  unfold uixOf
  have h1 : ⌊reduceCoord x L⌋ < (L : ℤ) :=
    Int.floor_lt.mpr (by exact_mod_cast reduceCoord_lt x L hL)
  omega

/-- Evaluate `reduceCoord` at a concrete point, given the enclosing integer
multiple of `L`. -/
lemma reduceCoord_eval (x : ℚ) (L : ℕ) (q : ℤ) (hL : 0 < L)
    (h1 : (q : ℚ) * L ≤ |x|) (h2 : |x| < ((q : ℚ) + 1) * L) :
    reduceCoord x L = |x| - q * L := by
  have hL0 : (0 : ℚ) < L := by positivity
  unfold reduceCoord
  have hq : ⌊|x| / L⌋ = q := by
    rw [Int.floor_eq_iff]
    constructor
    · rw [le_div_iff₀ hL0]; exact h1
    · rw [div_lt_iff₀ hL0]; exact h2
  rw [hq]; ring

lemma uixOf_eval (x : ℚ) (L : ℕ) (c : ℚ) (n : ℤ)
    (hred : reduceCoord x L = c) (hn : ⌊c⌋ = n) : uixOf x L = n.toNat := by
  unfold uixOf; rw [hred, hn]

/-- Successful fetch of `ln_lattice_value1` on an in-range index. -/
lemma value1_eq_some (lat : ln_lattice_s) (h1 : lat.dimensions = 1)
    (hs1 : 1 ≤ lat.size) (hsU : lat.size < U32) (x : ℕ) (hx : x < lat.size) :
    ln_lattice_value1 lat x = some (lat.values.getD x 0) := by
  unfold ln_lattice_value1
  rw [if_neg]
  push_neg
  refine ⟨h1, ?_⟩
  have hU := U32_eq
  have hmod : (lat.size + (U32 - 1)) % U32 = lat.size - 1 := by
    have h2 : lat.size + (U32 - 1) = (lat.size - 1) + U32 := by omega
    rw [h2, Nat.add_mod_right, Nat.mod_eq_of_lt (by omega)]
  rw [hmod]
  omega

/-- Successful fetch of `ln_lattice_value2` on in-range coordinates. -/
lemma value2_eq_some (lat : ln_lattice_s) (h2 : lat.dimensions = 2)
    (x y : ℕ) (hx : x < lat.dim_length) (hy : y < lat.dim_length) :
    ln_lattice_value2 lat x y =
      some (lat.values.getD ((y * lat.dim_length + x) % U32) 0) := by
  unfold ln_lattice_value2
  rw [if_neg]
  push_neg
  exact ⟨h2, hx, hy⟩

/-- Under the lattice invariants, all four neighbor fetches of
`ln_lattice_noise1d` succeed and the result is the Catmull-Rom
interpolation of the four stored samples. -/
lemma noise1dAux_eq_some (lat : ln_lattice_s) (hwf : WellFormed lat)
    (h1 : lat.dimensions = 1) (uix : ℕ) (r : ℚ) :
    noise1dAux lat uix r = some (catmull_rom
      (lat.values.getD (wrap32 (uix + (U32 - 1)) lat.dim_length) 0)
      (lat.values.getD (wrap32 uix lat.dim_length) 0)
      (lat.values.getD (wrap32 (uix + 1) lat.dim_length) 0)
      (lat.values.getD (wrap32 (uix + 2) lat.dim_length) 0) r) := by
  obtain ⟨hL, hLU, hd, hsz, hszU, hlen⟩ := hwf
  have hsize : lat.size = lat.dim_length := by rw [hsz, h1, pow_one]
  have hv : ∀ k, ln_lattice_value1 lat (wrap32 k lat.dim_length) =
      some (lat.values.getD (wrap32 k lat.dim_length) 0) := by
    intro k
    exact value1_eq_some lat h1 (by omega) (by omega) _
      (by rw [hsize]; exact wrap32_lt k lat.dim_length hL)
  unfold noise1dAux
  rw [hv, hv, hv, hv]

lemma noise1d_eq_some (lat : ln_lattice_s) (hwf : WellFormed lat)
    (h1 : lat.dimensions = 1) (x : ℚ) :
    ln_lattice_noise1d lat x =
      some ((ln_lattice_noise1d lat x).getD 0) := by
  unfold ln_lattice_noise1d
  rw [noise1dAux_eq_some lat hwf h1]
  rfl

/-- Under the 2-D invariants, every row interpolation of
`ln_lattice_noise2d` succeeds. -/
lemma noise2dRow_eq_some (lat : ln_lattice_s) (h2 : lat.dimensions = 2)
    (hL : 0 < lat.dim_length) (uix : ℕ) (r1 : ℚ) (yb : ℕ)
    (hyb : yb < lat.dim_length) :
    ∃ v, noise2dRow lat uix r1 yb = some v := by
  unfold noise2dRow
  rw [value2_eq_some lat h2 _ _ (wrap32_lt _ _ hL) hyb,
      value2_eq_some lat h2 _ _ (wrap32_lt _ _ hL) hyb,
      value2_eq_some lat h2 _ _ (wrap32_lt _ _ hL) hyb,
      value2_eq_some lat h2 _ _ (wrap32_lt _ _ hL) hyb]
  exact ⟨_, rfl⟩

/-- Under the 2-D invariants, `noise2dAux` returns a clamped value in
`[0, 1]`. -/
lemma noise2dAux_bounded (lat : ln_lattice_s) (h2 : lat.dimensions = 2)
    (hL : 0 < lat.dim_length) (uix uiy : ℕ) (r1 r2 : ℚ) :
    ∃ q, noise2dAux lat uix uiy r1 r2 = some q ∧ 0 ≤ q ∧ q ≤ 1 := by
  obtain ⟨v0, h0⟩ := noise2dRow_eq_some lat h2 hL uix r1
    (wrap32 (uiy + (U32 - 1)) lat.dim_length) (wrap32_lt _ _ hL)
  obtain ⟨v1, h1⟩ := noise2dRow_eq_some lat h2 hL uix r1
    (ybNext lat.dim_length (wrap32 (uiy + (U32 - 1)) lat.dim_length))
    (wrap32_lt _ _ hL)
  obtain ⟨v2, hv2⟩ := noise2dRow_eq_some lat h2 hL uix r1
    (ybNext lat.dim_length
      (ybNext lat.dim_length (wrap32 (uiy + (U32 - 1)) lat.dim_length)))
    (wrap32_lt _ _ hL)
  obtain ⟨v3, h3⟩ := noise2dRow_eq_some lat h2 hL uix r1
    (ybNext lat.dim_length
      (ybNext lat.dim_length
        (ybNext lat.dim_length (wrap32 (uiy + (U32 - 1)) lat.dim_length))))
    (wrap32_lt _ _ hL)
  refine ⟨clamp01 (catmull_rom v0 v1 v2 v3 r2), ?_,
    clamp01_mem (catmull_rom v0 v1 v2 v3 r2)⟩
  unfold noise2dAux
  rw [h0, h1, hv2, h3]

lemma noise2d_eq_some (lat : ln_lattice_s) (hwf : WellFormed lat)
    (h2 : lat.dimensions = 2) (x y : ℚ) :
    ln_lattice_noise2d lat x y =
      some ((ln_lattice_noise2d lat x y).getD 0) := by
  obtain ⟨q, hq, _, _⟩ := noise2dAux_bounded lat h2 hwf.1
    (uixOf x lat.dim_length) (uixOf y lat.dim_length)
    (Int.fract (reduceCoord x lat.dim_length))
    (Int.fract (reduceCoord y lat.dim_length))
  unfold ln_lattice_noise2d
  rw [hq]
  rfl

/-- Characterization of the `FSUM_IMPLEMENTATION` loop: starting from state
`(some r0, a0, f0, log0)`, when every sample is finite the loop accumulates
the geometric-weighted sum and logs the frequency of each sample. -/
lemma fsumStep_foldl (opt : ln_fsum_options) (sample : ℚ → Option ℚ)
    (g : ℚ → ℚ) (hs : ∀ f, sample f = some (g f)) (n : ℕ) :
    ∀ (r0 a0 f0 : ℚ) (log0 : List ℚ),
    (List.range n).foldl (fsumStep opt sample) (some r0, a0, f0, log0) =
      (some (r0 + ∑ i in Finset.range n,
        a0 * opt.amplitude_factor ^ i * g (f0 * opt.frequency_factor ^ i)),
       a0 * opt.amplitude_factor ^ n,
       f0 * opt.frequency_factor ^ n,
       log0 ++ (List.range n).map (fun i => f0 * opt.frequency_factor ^ i)) := by
  induction n with
  | zero => intro r0 a0 f0 log0; simp
  | succ m ih =>
    intro r0 a0 f0 log0
    rw [List.range_succ, List.foldl_append, ih]
    simp only [List.foldl_cons, List.foldl_nil, fsumStep, hs]
    refine congrArg₂ Prod.mk ?_ (congrArg₂ Prod.mk ?_ (congrArg₂ Prod.mk ?_ ?_))
    · rw [Finset.sum_range_succ]
      congr 1
      ring
    · ring
    · ring
    · simp [List.map_append, List.append_assoc]

/-- `FSUM_IMPLEMENTATION` when the guard rejects. -/
lemma FSUM_IMPLEMENTATION_reject (lat : ln_lattice_s)
    (opt : ln_fsum_options) (dims : ℕ) (sample : ℚ → Option ℚ)
    (h : opt.n < 1 ∨ lat.dimensions ≠ dims) :
    FSUM_IMPLEMENTATION lat opt dims sample = (none, []) := by
  unfold FSUM_IMPLEMENTATION
  rw [if_pos h]

/-- `FSUM_IMPLEMENTATION` when the guard accepts and every sample is
finite. -/
lemma FSUM_IMPLEMENTATION_accept (lat : ln_lattice_s)
    (opt : ln_fsum_options) (dims : ℕ) (sample : ℚ → Option ℚ) (g : ℚ → ℚ)
    (hs : ∀ f, sample f = some (g f))
    (h : ¬(opt.n < 1 ∨ lat.dimensions ≠ dims)) :
    FSUM_IMPLEMENTATION lat opt dims sample =
      (some (opt.offset + ∑ i in Finset.range opt.n,
        opt.amplitude_factor ^ i * g (opt.frequency_factor ^ i)),
       (List.range opt.n).map (fun i => opt.frequency_factor ^ i)) := by
  unfold FSUM_IMPLEMENTATION
  rw [if_neg h, fsumStep_foldl opt sample g hs opt.n opt.offset 1 1 []]
  simp [one_mul]

/-- The spec's wrap reduced to a plain (euclidean) integer remainder. -/
lemma specWrap_eq_emod (k : ℤ) (L : ℕ) : specWrap k L = k % (L : ℤ) := by
  unfold specWrap
  rw [show (k % (L : ℤ) + (L : ℤ)) = (k % (L : ℤ) + (L : ℤ) * 1) by ring,
      Int.add_mul_emod_self_left, Int.emod_emod_of_dvd k dvd_rfl]

/-- When the argument of `wrap32` is congruent to `δ` modulo `L`, the code's
wrap and the spec's wrap agree.  The congruence absorbs both the `% 2^32`
reduction (using `L ∣ 2^32`) and the unsigned encoding of negative
offsets. -/
lemma wrap32_eq_specWrap (L : ℕ) (hdvd : L ∣ U32) (k : ℕ)
    (δ : ℤ) (h : (k : ℤ) % (L : ℤ) = δ % (L : ℤ)) :
    wrap32 k L = (specWrap δ L).toNat := by
  rw [specWrap_eq_emod]
  unfold wrap32
  rw [Nat.mod_mod_of_dvd k hdvd]
  have h2 : ((k % L : ℕ) : ℤ) = δ % (L : ℤ) := by rw [Int.natCast_mod]; exact h
  omega

/-! ## Claims -/

/-- C1 (counterexample): on a 1-D lattice with `dim_length = 3` and
coordinate `x = 0` (so the integer part `i` of the reduced coordinate is
`0`), the four indices fetched by `ln_lattice_noise1d` are NOT the spec's
true-modulo wraps of `i-1, i, i+1, i+2`: the code fetches index
`(2^32 - 1) mod 3 = 0` for the `i-1` neighbor where the spec's wrap gives
`2`. -/
theorem C1_counterexample :
    uixOf (0 : ℚ) 3 = 0 ∧
    noise1dIndices 3 0 ≠
      [(specWrap ((0 : ℤ) - 1) 3).toNat, (specWrap (0 : ℤ) 3).toNat,
       (specWrap ((0 : ℤ) + 1) 3).toNat, (specWrap ((0 : ℤ) + 2) 3).toNat] := by
  constructor
  · have hred : reduceCoord (0 : ℚ) 3 = 0 := by
      rw [reduceCoord_eval (0 : ℚ) 3 0 (by norm_num) (by norm_num) (by norm_num)]
      norm_num
    rw [uixOf_eval (0 : ℚ) 3 0 0 hred (by norm_num)]
    rfl
  · decide

/-- C1 (amended): the four neighbor indices fetched by `ln_lattice_noise1d`
are `((k mod 2^32) mod L)` for `k = i-1, i, i+1, i+2` computed in unsigned
32-bit arithmetic; whenever `dim_length` divides `2^32` (in particular for
every power-of-two `dim_length`) they coincide with the spec's true-modulo
wraps `wrap(i-1), wrap(i), wrap(i+1), wrap(i+2)`, each independently
wrapped. -/
theorem C1_wrap_agrees_pow2 (L uix : ℕ) (hL : 1 ≤ L) (hdvd : L ∣ U32)
    (hu : uix < L) :
    noise1dIndices L uix =
      [(specWrap ((uix : ℤ) - 1) L).toNat, (specWrap (uix : ℤ) L).toNat,
       (specWrap ((uix : ℤ) + 1) L).toNat,
       (specWrap ((uix : ℤ) + 2) L).toNat] := by
  have hU : U32 = 4294967296 := U32_eq
  obtain ⟨m, hm⟩ := hdvd
  have hmz : ((U32 : ℕ) : ℤ) = (L : ℤ) * (m : ℤ) := by
    rw [hm]; push_cast; ring
  unfold noise1dIndices
  have e0 : wrap32 (uix + (U32 - 1)) L = (specWrap ((uix : ℤ) - 1) L).toNat := by
    apply wrap32_eq_specWrap L ⟨m, hm⟩
    have hc : ((uix + (U32 - 1) : ℕ) : ℤ) = (uix : ℤ) - 1 + (L : ℤ) * (m : ℤ) := by
      rw [← hmz]; omega
    rw [hc, Int.add_mul_emod_self_left]
  have e1 : wrap32 uix L = (specWrap (uix : ℤ) L).toNat :=
    wrap32_eq_specWrap L ⟨m, hm⟩ uix (uix : ℤ) rfl
  have e2 : wrap32 (uix + 1) L = (specWrap ((uix : ℤ) + 1) L).toNat := by
    apply wrap32_eq_specWrap L ⟨m, hm⟩
    have hc : ((uix + 1 : ℕ) : ℤ) = (uix : ℤ) + 1 := by omega
    rw [hc]
  have e3 : wrap32 (uix + 2) L = (specWrap ((uix : ℤ) + 2) L).toNat := by
    apply wrap32_eq_specWrap L ⟨m, hm⟩
    have hc : ((uix + 2 : ℕ) : ℤ) = (uix : ℤ) + 2 := by omega
    rw [hc]
  rw [e0, e1, e2, e3]

/-- C1 witness: at `L = 4` (a divisor of `2^32`) and `i = 1` the four code
indices equal the spec wraps `[0, 1, 2, 3]`. -/
theorem C1_wrap_agrees_pow2_witness :
    1 ≤ 4 ∧ (4 : ℕ) ∣ U32 ∧ 1 < 4 ∧ noise1dIndices 4 1 = [0, 1, 2, 3] := by
  have hdvd : (4 : ℕ) ∣ U32 := by norm_num [U32]
  refine ⟨by norm_num, hdvd, by norm_num, ?_⟩
  rw [C1_wrap_agrees_pow2 4 1 (by norm_num) hdvd (by norm_num)]
  decide

/-- C2 (code bug): for `dimensions = 64`, `dim_length = 2` the exact product
`2^64` exceeds `2^32 - 1`, so the claim (and the header documentation)
require `ln_lattice_new` to fail with `NULL`; but the 64-bit size
accumulator wraps to `0`, the check `size > UINT_MAX` passes, and
construction succeeds, returning a lattice whose `size` field is `0`. -/
theorem C2_overflow_check_wraps :
    (2 : ℕ) ^ 64 > U32 - 1 ∧
    Option.map ln_lattice_s.size (ln_lattice_new 64 2 (fun _ => 0)) =
      some 0 := by
  constructor
  · norm_num [U32]
  · decide

/-- C3 (code bug): `ln_lattice_value3` and `ln_lattice_value4` test
`dimensions != 2` (copied from `value2`) instead of `!= 3` / `!= 4`: on
well-formed 3-D and 4-D lattices they return the sentinel for in-range
coordinates, and on a 2-D lattice they return stored samples instead of
the sentinel demanded by the claim. -/
theorem C3_value34_dims_check_wrong :
    (exLattice3.dimensions = 3 ∧ ln_lattice_value3 exLattice3 0 0 0 = none) ∧
    (exLattice4.dimensions = 4 ∧
      ln_lattice_value4 exLattice4 0 0 0 0 = none) ∧
    (exLattice2.dimensions = 2 ∧
      ln_lattice_value3 exLattice2 0 0 0 = some (1/10) ∧
      ln_lattice_value4 exLattice2 0 0 0 0 = some (1/10)) := by
  refine ⟨⟨rfl, by decide⟩, ⟨rfl, by decide⟩, rfl, ?_, ?_⟩
  · norm_num [ln_lattice_value3, exLattice2, U32]
  · norm_num [ln_lattice_value4, exLattice2, U32]

/-- C4 (confirmed): for every options value with `n ≥ 1`,
`ln_fsum_max_value` returns the closed-form geometric-series value
`(1 - r^n) / (1 - r)` when `r = amplitude_ratio ≠ 1`, and returns `n` when
`r = 1`. -/
theorem C4_fsum_max_value_closed_form (opt : ln_fsum_options)
    (hn : 1 ≤ opt.n) :
    (opt.amplitude_factor ≠ 1 →
      ln_fsum_max_value opt =
        some ((1 - opt.amplitude_factor ^ opt.n) /
          (1 - opt.amplitude_factor))) ∧
    (opt.amplitude_factor = 1 →
      ln_fsum_max_value opt = some (opt.n : ℚ)) := by
  unfold ln_fsum_max_value
  rw [if_neg (by omega)]
  constructor <;> intro h <;> simp [h]

/-- C4 witness: the defaults produced by `ln_default_fsum_options` are
`n = 4, amplitude_ratio = 0.5, frequency_ratio = 2.0, offset = 0.0`, and
`ln_fsum_max_value` on them is exactly `1.875 = 15/8`. -/
theorem C4_fsum_max_value_witness :
    ln_default_fsum_options = ⟨4, 1/2, 2, 0⟩ ∧
    1 ≤ ln_default_fsum_options.n ∧
    ln_fsum_max_value ln_default_fsum_options = some (15/8) := by
  refine ⟨rfl, by norm_num [ln_default_fsum_options], ?_⟩
  have h := (C4_fsum_max_value_closed_form ln_default_fsum_options
    (by norm_num [ln_default_fsum_options])).1
    (by norm_num [ln_default_fsum_options])
  rw [h]
  norm_num [ln_default_fsum_options]

/-- C5 (confirmed): for every `dimensions ≥ 1` and `dim_length ≥ 1` with
`dim_length ^ dimensions ≤ 2^32 - 1`, and with allocation assumed to
succeed, `ln_lattice_new` returns a lattice whose `size` field equals
`dim_length ^ dimensions` and all of whose stored samples lie in
`[0, 1]`, regardless of the values the supplied RandomSource produces. -/
theorem C5_lattice_new_ok (dimensions dim_length : ℕ) (rng : ℕ → ℚ)
    (hd : 1 ≤ dimensions) (hL : 1 ≤ dim_length)
    (hsz : dim_length ^ dimensions ≤ U32 - 1) :
    ∃ lat, ln_lattice_new dimensions dim_length rng = some lat ∧
      lat.size = dim_length ^ dimensions ∧
      ∀ v ∈ lat.values, 0 ≤ v ∧ v ≤ 1 := by
  have hU64 : dim_length ^ dimensions < U64 := by
    have h1 : U32 - 1 < U64 := by norm_num [U32, U64]
    omega
  have hfold : (List.range dimensions).foldl
      (fun s _ => s * dim_length % U64) 1 = dim_length ^ dimensions := by
    clear hsz hd
    induction dimensions with
    | zero => simp
    | succ m ih =>
      have hm : dim_length ^ m < U64 := by
        have h2 : dim_length ^ m ≤ dim_length ^ (m + 1) :=
          Nat.pow_le_pow_right hL (by omega)
        omega
      rw [List.range_succ, List.foldl_append, ih hm]
      simp only [List.foldl_cons, List.foldl_nil]
      rw [← pow_succ, Nat.mod_eq_of_lt hU64]
  unfold ln_lattice_new
  rw [if_neg (by omega)]
  simp only [hfold]
  rw [if_neg (by omega)]
  refine ⟨_, rfl, rfl, ?_⟩
  intro v hv
  simp only [List.mem_map] at hv
  obtain ⟨i, _, hiv⟩ := hv
  rw [← hiv]
  exact clamp01_mem (rng i)

/-- C5 witness: a 1-D lattice of length 4. -/
theorem C5_lattice_new_ok_witness :
    1 ≤ 1 ∧ 1 ≤ 4 ∧ 4 ^ 1 ≤ U32 - 1 ∧
    ∃ lat, ln_lattice_new 1 4 (fun _ => 1/2) = some lat ∧
      lat.size = 4 ^ 1 ∧ ∀ v ∈ lat.values, 0 ≤ v ∧ v ≤ 1 :=
  ⟨by norm_num, by norm_num, by norm_num [U32],
   C5_lattice_new_ok 1 4 (fun _ => 1/2) (by norm_num) (by norm_num)
     (by norm_num [U32])⟩

/-- C6 (confirmed): for every well-formed lattice, `ln_lattice_fsum1d`
(resp. `ln_lattice_fsum2d`) returns the infinity sentinel iff `opt.n < 1`
or the lattice dimensionality differs from 1 (resp. 2); on rejection no
noise sample is taken (the sample log is empty); otherwise the result is
`offset` plus the sum over `i < n` of `amplitude_ratio^i` times the noise
function at `frequency_ratio^i` times the input coordinates. -/
theorem C6_fsum_guard_and_sum (lat : ln_lattice_s) (hwf : WellFormed lat)
    (x y : ℚ) (opt : ln_fsum_options) :
    ((ln_lattice_fsum1d lat x opt = none) ↔
      (opt.n < 1 ∨ lat.dimensions ≠ 1)) ∧
    ((opt.n < 1 ∨ lat.dimensions ≠ 1) → fsum1dSampleLog lat x opt = []) ∧
    (¬(opt.n < 1 ∨ lat.dimensions ≠ 1) →
      ln_lattice_fsum1d lat x opt =
        some (opt.offset + ∑ i in Finset.range opt.n,
          opt.amplitude_factor ^ i *
            (ln_lattice_noise1d lat (opt.frequency_factor ^ i * x)).getD 0)) ∧
    ((ln_lattice_fsum2d lat x y opt = none) ↔
      (opt.n < 1 ∨ lat.dimensions ≠ 2)) ∧
    ((opt.n < 1 ∨ lat.dimensions ≠ 2) → fsum2dSampleLog lat x y opt = []) ∧
    (¬(opt.n < 1 ∨ lat.dimensions ≠ 2) →
      ln_lattice_fsum2d lat x y opt =
        some (opt.offset + ∑ i in Finset.range opt.n,
          opt.amplitude_factor ^ i *
            (ln_lattice_noise2d lat (opt.frequency_factor ^ i * x)
              (opt.frequency_factor ^ i * y)).getD 0)) := by
  have acc1 : ∀ _ : ¬(opt.n < 1 ∨ lat.dimensions ≠ 1),
      ln_lattice_fsum1d lat x opt =
        some (opt.offset + ∑ i in Finset.range opt.n,
          opt.amplitude_factor ^ i *
            (ln_lattice_noise1d lat (opt.frequency_factor ^ i * x)).getD 0) := by
    intro hg
    have hdim : lat.dimensions = 1 := by
      push_neg at hg; exact hg.2
    unfold ln_lattice_fsum1d
    rw [FSUM_IMPLEMENTATION_accept lat opt 1
      (fun f => ln_lattice_noise1d lat (f * x))
      (fun f => (ln_lattice_noise1d lat (f * x)).getD 0)
      (fun f => noise1d_eq_some lat hwf hdim (f * x)) hg]
  have acc2 : ∀ _ : ¬(opt.n < 1 ∨ lat.dimensions ≠ 2),
      ln_lattice_fsum2d lat x y opt =
        some (opt.offset + ∑ i in Finset.range opt.n,
          opt.amplitude_factor ^ i *
            (ln_lattice_noise2d lat (opt.frequency_factor ^ i * x)
              (opt.frequency_factor ^ i * y)).getD 0) := by
    intro hg
    have hdim : lat.dimensions = 2 := by
      push_neg at hg; exact hg.2
    unfold ln_lattice_fsum2d
    rw [FSUM_IMPLEMENTATION_accept lat opt 2
      (fun f => ln_lattice_noise2d lat (f * x) (f * y))
      (fun f => (ln_lattice_noise2d lat (f * x) (f * y)).getD 0)
      (fun f => noise2d_eq_some lat hwf hdim (f * x) (f * y)) hg]
  refine ⟨⟨?_, ?_⟩, ?_, acc1, ⟨?_, ?_⟩, ?_, acc2⟩
  · intro hnone
    by_contra hg
    rw [acc1 hg] at hnone
    exact Option.some_ne_none _ hnone
  · intro hg
    unfold ln_lattice_fsum1d
    rw [FSUM_IMPLEMENTATION_reject lat opt 1 _ hg]
  · intro hg
    unfold fsum1dSampleLog
    rw [FSUM_IMPLEMENTATION_reject lat opt 1 _ hg]
  · intro hnone
    by_contra hg
    rw [acc2 hg] at hnone
    exact Option.some_ne_none _ hnone
  · intro hg
    unfold ln_lattice_fsum2d
    rw [FSUM_IMPLEMENTATION_reject lat opt 2 _ hg]
  · intro hg
    unfold fsum2dSampleLog
    rw [FSUM_IMPLEMENTATION_reject lat opt 2 _ hg]

/-- C6 witness: on the well-formed 1-D scenario lattice with the default
options (`n = 4 ≥ 1`, matching dimensionality), `ln_lattice_fsum1d` does
not return the sentinel, and on a dimensionality mismatch (`fsum2d` on the
1-D lattice) the sentinel is returned with an empty sample log. -/
theorem C6_fsum_guard_and_sum_witness :
    WellFormed exLattice1 ∧
    ln_lattice_fsum1d exLattice1 0 ln_default_fsum_options ≠ none ∧
    ln_lattice_fsum2d exLattice1 0 0 ln_default_fsum_options = none ∧
    fsum2dSampleLog exLattice1 0 0 ln_default_fsum_options = [] := by
  have hwf : WellFormed exLattice1 := by decide
  have h := C6_fsum_guard_and_sum exLattice1 hwf 0 0 ln_default_fsum_options
  refine ⟨hwf, ?_, ?_, ?_⟩
  · intro hnone
    have hg := h.1.mp hnone
    rcases hg with hg | hg
    · exact absurd hg (by norm_num [ln_default_fsum_options])
    · exact hg rfl
  · exact h.2.2.2.1.mpr (Or.inr (by decide))
  · exact h.2.2.2.2.1 (Or.inr (by decide))

/-- C7 (confirmed): for every well-formed 1-D lattice and every coordinate
whose reduced value has fractional part exactly `0`, `ln_lattice_noise1d`
returns exactly `ln_lattice_value1` at the reduced integer index: the
cubic interpolant passes through `p1` at parameter `t = 0`. -/
theorem C7_integer_coordinate_exact (lat : ln_lattice_s)
    (hwf : WellFormed lat) (h1 : lat.dimensions = 1) (x : ℚ)
    (hfrac : Int.fract (reduceCoord x lat.dim_length) = 0) :
    ln_lattice_noise1d lat x =
      ln_lattice_value1 lat (uixOf x lat.dim_length) := by
  obtain ⟨hL, hLU, hd, hsz, hszU, hlen⟩ := hwf
  have hwf2 : WellFormed lat := ⟨hL, hLU, hd, hsz, hszU, hlen⟩
  have hsize : lat.size = lat.dim_length := by rw [hsz, h1, pow_one]
  have hu : uixOf x lat.dim_length < lat.dim_length := uixOf_lt x _ hL
  have hw : wrap32 (uixOf x lat.dim_length) lat.dim_length =
      uixOf x lat.dim_length := by
    unfold wrap32
    rw [Nat.mod_eq_of_lt (lt_trans hu hLU), Nat.mod_eq_of_lt hu]
  unfold ln_lattice_noise1d
  rw [noise1dAux_eq_some lat hwf2 h1, hfrac, hw,
      value1_eq_some lat h1 (by omega) (by omega) (uixOf x lat.dim_length)
        (by rw [hsize]; exact hu)]
  congr 1
  simp only [catmull_rom]
  ring

/-- C7 witness: the spec scenario, `noise1d(lattice, 1.0) =
value1(lattice, 1) = 0.9` on the lattice `[0.1, 0.9, 0.2, 0.7]`. -/
theorem C7_integer_coordinate_exact_witness :
    WellFormed exLattice1 ∧ exLattice1.dimensions = 1 ∧
    Int.fract (reduceCoord 1 exLattice1.dim_length) = 0 ∧
    uixOf 1 exLattice1.dim_length = 1 ∧
    ln_lattice_noise1d exLattice1 1 =
      ln_lattice_value1 exLattice1 (uixOf 1 exLattice1.dim_length) ∧
    ln_lattice_value1 exLattice1 1 = some (9/10) := by
  have hred : reduceCoord (1 : ℚ) 4 = 1 := by
    rw [reduceCoord_eval (1 : ℚ) 4 0 (by norm_num) (by norm_num) (by norm_num)]
    norm_num
  have hfr : Int.fract (reduceCoord (1 : ℚ) 4) = 0 := by
    rw [hred]; norm_num [Int.fract]
  have hu : uixOf (1 : ℚ) 4 = 1 := by
    rw [uixOf_eval (1 : ℚ) 4 1 1 hred (by norm_num)]; rfl
  refine ⟨by decide, rfl, hfr, hu, ?_, ?_⟩
  · exact C7_integer_coordinate_exact exLattice1 (by decide) rfl 1 hfr
  · norm_num [ln_lattice_value1, exLattice1, U32]

/-- Reducing a nonnegative coordinate is periodic with period
`dim_length`. -/
lemma reduceCoord_add_period (x : ℚ) (L : ℕ) (hL : 0 < L) (hx : 0 ≤ x) :
    reduceCoord (x + L) L = reduceCoord x L := by
  have hL0 : (0 : ℚ) < L := by positivity
  unfold reduceCoord
  rw [abs_of_nonneg hx, abs_of_nonneg (by linarith)]
  have hdiv : (x + L) / L = x / L + 1 := by field_simp
  rw [hdiv, Int.floor_add_one]
  push_cast
  ring

/-- C8 (counterexample): on the well-formed scenario lattice (L = 4), at
`x = -1/2` the claim `noise1d(x) = noise1d(x + L)` fails outright
(`61/160` vs `81/160`, a difference far beyond any floating-point
tolerance), because negative coordinates are reduced by absolute value. -/
theorem C8_counterexample :
    WellFormed exLattice1 ∧
    ln_lattice_noise1d exLattice1 (-1/2 + (exLattice1.dim_length : ℚ)) ≠
      ln_lattice_noise1d exLattice1 (-1/2) := by
  refine ⟨by decide, ?_⟩
  have harg : (-1/2 + (exLattice1.dim_length : ℚ)) = 7/2 := by
    norm_num [exLattice1]
  rw [harg]
  have hred1 : reduceCoord (7/2 : ℚ) 4 = 7/2 := by
    rw [reduceCoord_eval (7/2 : ℚ) 4 0 (by norm_num) (by norm_num)
      (by rw [show |(7/2 : ℚ)| = 7/2 by norm_num]; norm_num)]
    norm_num
  have hu1 : uixOf (7/2 : ℚ) 4 = 3 := by
    rw [uixOf_eval (7/2 : ℚ) 4 (7/2) 3 hred1 (by norm_num)]; rfl
  have hfr1 : Int.fract (reduceCoord (7/2 : ℚ) 4) = 1/2 := by
    rw [hred1]; norm_num [Int.fract]
  have h1 : ln_lattice_noise1d exLattice1 (7/2) = some (61/160) := by
    show noise1dAux exLattice1 (uixOf (7/2) 4)
      (Int.fract (reduceCoord (7/2) 4)) = some (61/160)
    rw [hu1, hfr1]
    norm_num [noise1dAux, ln_lattice_value1, exLattice1, wrap32, U32,
      catmull_rom]
  have hred2 : reduceCoord (-1/2 : ℚ) 4 = 1/2 := by
    rw [reduceCoord_eval (-1/2 : ℚ) 4 0 (by norm_num) (by norm_num)
      (by rw [show |(-1/2 : ℚ)| = 1/2 by norm_num]; norm_num)]
    norm_num
  have hu2 : uixOf (-1/2 : ℚ) 4 = 0 := by
    rw [uixOf_eval (-1/2 : ℚ) 4 (1/2) 0 hred2 (by norm_num)]; rfl
  have hfr2 : Int.fract (reduceCoord (-1/2 : ℚ) 4) = 1/2 := by
    rw [hred2]; norm_num [Int.fract]
  have h2 : ln_lattice_noise1d exLattice1 (-1/2) = some (81/160) := by
    show noise1dAux exLattice1 (uixOf (-1/2) 4)
      (Int.fract (reduceCoord (-1/2) 4)) = some (81/160)
    rw [hu2, hfr2]
    norm_num [noise1dAux, ln_lattice_value1, exLattice1, wrap32, U32,
      catmull_rom]
  rw [h1, h2]
  intro hcon
  rw [Option.some_inj] at hcon
  norm_num at hcon

/-- C8 (amended): wraparound periodicity holds for every nonnegative
coordinate: for a well-formed 1-D lattice of length `L` and every `x ≥ 0`,
`noise1d(lattice, x + L) = noise1d(lattice, x)` exactly.  (For negative
`x` the implementation reduces `|x|`, so periodicity fails there; the
spec's own design note records this absolute-value symmetry.) -/
theorem C8_periodic_nonneg (lat : ln_lattice_s) (hwf : WellFormed lat)
    (h1 : lat.dimensions = 1) (x : ℚ) (hx : 0 ≤ x) :
    ln_lattice_noise1d lat (x + (lat.dim_length : ℚ)) =
      ln_lattice_noise1d lat x := by
  unfold ln_lattice_noise1d uixOf
  rw [reduceCoord_add_period x lat.dim_length hwf.1 hx]

/-- C8 witness: the spec's own instance `noise1d(lattice, 4.0) =
noise1d(lattice, 0.0)` on the L = 4 scenario lattice. -/
theorem C8_periodic_nonneg_witness :
    WellFormed exLattice1 ∧ exLattice1.dimensions = 1 ∧ (0 : ℚ) ≤ 0 ∧
    ln_lattice_noise1d exLattice1 (0 + (exLattice1.dim_length : ℚ)) =
      ln_lattice_noise1d exLattice1 0 :=
  ⟨by decide, rfl, le_refl 0,
   C8_periodic_nonneg exLattice1 (by decide) rfl 0 (le_refl 0)⟩

/-- C9 (counterexample): `ln_lattice_noise2d` on a well-formed 1-D lattice
does not return a value in `[0,1]`: every `value2` fetch returns the
`INFINITY` sentinel (dimension mismatch), so the result is non-finite
(`none`; NaN in the C code, which `clamp01` passes through). -/
theorem C9_counterexample :
    WellFormed exLattice1 ∧ ln_lattice_noise2d exLattice1 0 0 = none :=
  ⟨by decide, by decide⟩

/-- C9 (amended): for every well-formed lattice with `dimensions = 2` and
all inputs, `ln_lattice_noise2d` returns a value, and that value lies in
`[0, 1]`: the final y-direction interpolation pass is clamped by `clamp01`
before being returned. -/
theorem C9_noise2d_clamped (lat : ln_lattice_s) (hwf : WellFormed lat)
    (h2 : lat.dimensions = 2) (x y : ℚ) :
    ∃ q, ln_lattice_noise2d lat x y = some q ∧ 0 ≤ q ∧ q ≤ 1 := by
  unfold ln_lattice_noise2d
  exact noise2dAux_bounded lat h2 hwf.1 _ _ _ _

/-- C9 witness: the 2-D example lattice at the origin. -/
theorem C9_noise2d_clamped_witness :
    WellFormed exLattice2 ∧ exLattice2.dimensions = 2 ∧
    ∃ q, ln_lattice_noise2d exLattice2 0 0 = some q ∧ 0 ≤ q ∧ q ≤ 1 :=
  ⟨by decide, rfl, C9_noise2d_clamped exLattice2 (by decide) rfl 0 0⟩

/-- C10 (confirmed): on a well-formed 1-D lattice (so
`size = dim_length ≥ 1`), every one of the four indices
`ln_lattice_noise1d` passes to `ln_lattice_value1` is strictly less than
`dim_length`, so the sentinel branch of `ln_lattice_value1` is never taken
and the result of `ln_lattice_noise1d` is always an interpolated value,
never the infinity sentinel. -/
theorem C10_noise1d_never_sentinel (lat : ln_lattice_s)
    (hwf : WellFormed lat) (h1 : lat.dimensions = 1) (x : ℚ) :
    (∀ i ∈ noise1dIndices lat.dim_length (uixOf x lat.dim_length),
      i < lat.dim_length) ∧
    (ln_lattice_noise1d lat x).isSome = true := by
  constructor
  · intro i hi
    have hL : 0 < lat.dim_length := hwf.1
    simp only [noise1dIndices, List.mem_cons, List.not_mem_nil,
      or_false] at hi
    rcases hi with h | h | h | h <;> rw [h] <;> exact wrap32_lt _ _ hL
  · rw [noise1d_eq_some lat hwf h1 x]
    rfl

/-- C10 witness: the scenario lattice at `x = 0`. -/
theorem C10_noise1d_never_sentinel_witness :
    WellFormed exLattice1 ∧ exLattice1.dimensions = 1 ∧
    ((∀ i ∈ noise1dIndices exLattice1.dim_length
        (uixOf 0 exLattice1.dim_length), i < exLattice1.dim_length) ∧
     (ln_lattice_noise1d exLattice1 0).isSome = true) :=
  ⟨by decide, rfl, C10_noise1d_never_sentinel exLattice1 (by decide) rfl 0⟩

end LatticeNoise
